import Mathlib

set_option maxRecDepth 2048

/-!
Verification development for `inca_automation.py`.

The script drives a calibration/measurement session: a filename resolver
(`FileValidator.get_available_filename`), a calibration write-verify engine
(`CalibrationApplicator`), and a timed sampling loop (`MeasurementCollector`).
Each Python routine is embedded as a pure Lean function; the external
INCA COM facade (reads, writes, sync attempts, the wall clock, the sink)
is passed in as explicit oracles, with `Option`/`Except`/`Bool` results
standing for raised-vs-caught exceptions exactly where the Python code
catches them.
-/

namespace Inca

/-! ## Filename resolver: `FileValidator.get_available_filename` (lines 172-205)

`is_file_writable` probes the real filesystem; it enters the model as the
oracle `w : String → Bool`.  `os.path.splitext` (ntpath/genericpath
`_splitext`) is embedded structurally below. -/

/-- Windows path separators recognised by `os.path` (ntpath `sep` and `altsep`). -/
def isSep (c : Char) : Bool := c = '\\' || c = '/'

/-- Split a character list at its last path separator: returns
`some (dir-including-final-sep, basename)` when a separator occurs. -/
def splitBaseAux : List Char → Option (List Char × List Char)
  | [] => none
  | c :: rest =>
    match splitBaseAux rest with
    | some (d, b) => some (c :: d, b)
    | none => if isSep c then some ([c], rest) else none

/-- Split a character list at its last `'.'`: returns
`some (before, dot-and-after)` when a dot occurs, preferring the rightmost. -/
def lastDotSplit : List Char → Option (List Char × List Char)
  | [] => none
  | c :: rest =>
    match lastDotSplit rest with
    | some (pre, suf) => some (c :: pre, suf)
    | none => if c = '.' then some ([], c :: rest) else none

/-- `os.path.splitext`: split off the extension at the last dot of the
basename, unless every basename character before that dot is itself a dot
(so leading dots such as `.bashrc` never start an extension). -/
def splitext (p : String) : String × String :=
  let cs := p.data
  let base := match splitBaseAux cs with
    | some db => db
    | none => ([], cs)
  match lastDotSplit base.2 with
  | none => (p, "")
  | some (pre, suf) =>
    if pre.any (fun c => c ≠ '.') then (String.mk (base.1 ++ pre), String.mk suf)
    else (p, "")

/-- The numbered candidate `f"{base_name}_{counter}{ext}"` built in the
retry loop of `get_available_filename`. -/
def candidate (filename : String) (n : Nat) : String :=
  (splitext filename).1 ++ "_" ++ toString n ++ (splitext filename).2

/-- The `for counter in range(1, 101)` search: first candidate the
writability probe accepts. -/
def findAvail (w : String → Bool) : List String → Option String
  | [] => none
  | c :: rest => if w c then some c else findAvail w rest

/-- `FileValidator.get_available_filename`: return the desired name when
writable, otherwise the first writable `{stem}_{n}{ext}` for `n = 1..100`,
otherwise `none`. -/
def get_available_filename (w : String → Bool) (filename : String) : Option String :=
  if w filename then some filename
  else findAvail w ((List.range' 1 100).map (fun n => candidate filename n))

/-! ## Measurement-variable registration: `INCADemoController.set_measurement_vars`
(lines 371-403)

The controller keeps `measurement_vars`, a Python dict from the key
`var_name.lower().replace('_', '')` to the original spelling; the dict is
embedded as an association list with insertion-order-preserving update. -/

/-- The whitespace characters removed by Python `str.strip`. -/
def isPyWhitespace (c : Char) : Bool :=
  c = ' ' || c = '\t' || c = '\n' || c = '\r' || c = '\x0b' || c = '\x0c'

/-- Python `str.strip()`: drop leading and trailing whitespace. -/
def pyStrip (s : String) : String :=
  String.mk (((s.data.dropWhile isPyWhitespace).reverse.dropWhile isPyWhitespace).reverse)

/-- Python `str.split(',')`: split on every comma (adjacent commas give
empty fields, the empty string gives one empty field). -/
def splitCommaAux : List Char → List Char → List (List Char)
  | [], acc => [acc.reverse]
  | c :: rest, acc =>
    if c = ',' then acc.reverse :: splitCommaAux rest []
    else splitCommaAux rest (c :: acc)

/-- `var_names_str.split(',')` as a list of strings. -/
def splitComma (s : String) : List String :=
  (splitCommaAux s.data []).map String.mk

/-- The dict key `var_name.lower().replace('_', '')`: ASCII lowercase with
every underscore removed. -/
def normKey (s : String) : String :=
  String.mk ((s.data.map Char.toLower).filter (fun c => c ≠ '_'))

/-- Python dict assignment `d[k] = v`: update in place when the key exists
(keeping its position), otherwise append at the end. -/
def dictInsert (d : List (String × String)) (k v : String) : List (String × String) :=
  match d with
  | [] => [(k, v)]
  | (k', v') :: rest =>
    if k' = k then (k', v) :: rest else (k', v') :: dictInsert rest k v

/-- The registration loop `self.measurement_vars[key] = var_name` over the
parsed variable names, starting from the empty dict of `__init__`. -/
def register_vars (var_names : List String) : List (String × String) :=
  var_names.foldl (fun d n => dictInsert d (normKey n) n) []

/-- `INCADemoController.set_measurement_vars`: parse the comma-separated
option, strip each field, drop empty fields, and register the survivors;
`none` models the early `return False` paths (empty input, no valid name),
on which `measurement_vars` is left untouched. -/
def set_measurement_vars (var_names_str : String) : Option (List (String × String)) :=
  if pyStrip var_names_str = "" then none
  else
    let var_names := ((splitComma var_names_str).map pyStrip).filter (fun v => v ≠ "")
    if var_names = [] then none
    else some (register_vars var_names)

/-- `list(self.measurement_vars.values())` (line 769). -/
def measurement_values (d : List (String × String)) : List String := d.map Prod.snd

/-! ## `INCADemoController.stop_measurement` (lines 553-573)

The COM calls `experiment.StopMeasurement()` and `inca.WriteToMonitor(...)`
are the device operations; each run of the method is driven by two oracle
booleans saying whether those calls raise. -/

/-- A device operation issued through the COM facade during `stop_measurement`. -/
inductive DevOp
  | stopMeas
  | writeMonitor
deriving DecidableEq, Repr

/-- The controller state fields `stop_measurement` can read or write. -/
structure Controller where
  project_name : String
  device_name : String
  measurement_started : Bool
  measurement_vars : List (String × String)
deriving DecidableEq, Repr

/-- `INCADemoController.stop_measurement`: a no-op returning `True` when no
measurement is started; otherwise issue `StopMeasurement` (raising when
`stopOk = false`, caught, returning `False` with the flag left set), then
clear the flag and issue `WriteToMonitor` (whose failure is also caught,
returning `False` with the flag already cleared).  Returns the Python
result, the new state, and the trace of device operations issued. -/
def stop_measurement (stopOk monitorOk : Bool) (c : Controller) :
    Bool × Controller × List DevOp :=
  if !c.measurement_started then (true, c, [])
  else if stopOk then
    let c' := Controller.mk c.project_name c.device_name false c.measurement_vars
    if monitorOk then (true, c', [.stopMeas, .writeMonitor])
    else (false, c', [.stopMeas, .writeMonitor])
  else (false, c, [.stopMeas])

/-- Number of `StopMeasurement` invocations in a device-operation trace. -/
def countStop (ops : List DevOp) : Nat := ops.countP (fun o => o = .stopMeas)

/-! ## Calibration write-verify engine: `CalibrationApplicator` (lines 595-739)

Readings and writes go through the COM facade; a `ParamBehavior` records,
for one parameter, the facade's responses: the diagnostic read result
(`none` = the read raised, caught in `_read_calibration`), whether
`GetCalibrationValueInDevice`/`SetDoublePhysValue` succeed, whether each
memory-sync method in the fixed order succeeds, and the result of the
`k`-th verification read.  Physical values are modelled as rationals. -/

/-- Decidable equality for `Except` results, used to evaluate the engine
on concrete facade behaviours. -/
instance instDecEqExcept {e a : Type} [DecidableEq e] [DecidableEq a] :
    DecidableEq (Except e a) := fun x y =>
  match x, y with
  | .ok u, .ok v =>
    if h : u = v then .isTrue (congrArg Except.ok h)
    else .isFalse (fun hh => h (Except.ok.inj hh))
  | .error u, .error v =>
    if h : u = v then .isTrue (congrArg Except.error h)
    else .isFalse (fun hh => h (Except.error.inj hh))
  | .ok _, .error _ => .isFalse (fun hh => Except.noConfusion hh)
  | .error _, .ok _ => .isFalse (fun hh => Except.noConfusion hh)

/-- Per-parameter outcome, the spec's `ApplyResult` classification of the
booleans the code returns: `WriteFailed` is `_write_calibration` returning
`False`, `UnverifiedAfterRetries` is `_verify_calibration` returning
`False` after a successful write. -/
inductive ApplyResult
  | Verified
  | WriteFailed
  | UnverifiedAfterRetries
deriving DecidableEq, Repr

/-- Facade responses for one parameter. -/
structure ParamBehavior where
  diagRead : Option ℚ
  writeOk : Bool
  syncOutcomes : List Bool
  verifyReads : Nat → Option ℚ

/-- The acceptance test of the verification loop:
`verify_val is not None and abs(verify_val - expected_value) < 0.01`. -/
def tolOk (r : Option ℚ) (expected : ℚ) : Bool :=
  match r with
  | some v => decide (|v - expected| < 1 / 100)
  | none => false

/-- The `for retry in range(3)` loop of `_verify_calibration`, over the
remaining retry indices: returns whether a read passed the test, the last
read result (Python's `verify_val` after the loop), and the number of
reads performed. -/
def verify_loop (reads : Nat → Option ℚ) (expected : ℚ) :
    List Nat → Option ℚ → Bool × Option ℚ × Nat
  | [], last => (false, last, 0)
  | k :: rest, _ =>
    let v := reads k
    if tolOk v expected then (true, v, 1)
    else
      let r := verify_loop reads expected rest v
      (r.1, r.2.1, r.2.2 + 1)

/-- `CalibrationApplicator._verify_calibration`: run the three-attempt
loop; on success return `True`, on exhaustion print a warning formatting
the last read value and return `False`.  When every read raised, that
warning formats `None` with `:.2f`, a `TypeError` that nothing in the
applicator catches: `.error ()` models the escaping exception.  The `Nat`
is the number of verification reads performed. -/
def verify_calibration (reads : Nat → Option ℚ) (expected : ℚ) : Except Unit (Bool × Nat) :=
  match verify_loop reads expected (List.range 3) none with
  | (true, _, n) => .ok (true, n)
  | (false, some _, n) => .ok (false, n)
  | (false, none, _) => .error ()

/-- `CalibrationApplicator._sync_memory`: try `Synchronize`,
`DownloadWorkingPage`, `SyncWorkingPageToEcu` in that order, swallowing
each failure and stopping at the first success.  Returns whether any
succeeded and how many methods were invoked. -/
def sync_memory : List Bool → Bool × Nat
  | [] => (false, 0)
  | o :: rest =>
    if o then (true, 1)
    else
      let r := sync_memory rest
      (r.1, r.2 + 1)

/-- `CalibrationApplicator._write_calibration`: fetch the calibration
object and set the value; on success run `_sync_memory` (whose result is
discarded — sync failure does not fail the write) and return `True`; any
exception is caught and yields `False`. -/
def write_calibration (b : ParamBehavior) : Bool :=
  if b.writeOk then
    let _sync := sync_memory b.syncOutcomes
    true
  else false

/-- `CalibrationApplicator._apply_single`: diagnostic read (logged only),
then the write; a failed write returns immediately (`WriteFailed`, zero
verification reads), a successful write hands over to
`_verify_calibration`, whose escaping `TypeError` propagates. -/
def apply_single (b : ParamBehavior) (newValue : ℚ) : Except Unit (ApplyResult × Nat) :=
  let _diag := b.diagRead
  if write_calibration b then
    match verify_calibration b.verifyReads newValue with
    | .ok (true, n) => .ok (.Verified, n)
    | .ok (false, n) => .ok (.UnverifiedAfterRetries, n)
    | .error e => .error e
  else .ok (.WriteFailed, 0)

/-- `CalibrationApplicator.apply_all`: process every entry in order,
counting successes and failures; an exception escaping `_apply_single`
aborts the whole batch (nothing in `apply_all` catches it). -/
def apply_all (dev : String → ParamBehavior) : List (String × ℚ) → Except Unit (Nat × Nat)
  | [] => .ok (0, 0)
  | (name, val) :: rest =>
    match apply_single (dev name) val with
    | .error e => .error e
    | .ok (r, _) =>
      match apply_all dev rest with
      | .error e => .error e
      | .ok (s, f) => if r = .Verified then .ok (s + 1, f) else .ok (s, f + 1)

/-! ## Measurement collector: `MeasurementCollector` (lines 745-919)

`_read_measurement` wraps the facade's `GetMeasurementValueInDevice`;
its caught exceptions are an `Option ℚ` oracle, per tick and per name.
The wall clock `datetime.now()` is an oracle giving the strftime date
part plus the microsecond field.  The CSV sink is the list of rows the
writer receives; a cell is either a Python `str` or a raw `float`. -/

/-- One CSV cell as handed to `csv.writer`: a string, or a raw float. -/
inductive CsvCell
  | str (t : String)
  | num (q : ℚ)
deriving DecidableEq, Repr

/-- The per-channel branch of `_read_all_measurements`: the value itself
on success, the literal text `'N/A'` on a caught read failure. -/
def cellOf (r : Option ℚ) : CsvCell :=
  match r with
  | some x => .num x
  | none => .str "N/A"

/-- What `datetime.now()` supplies to the timestamp format: the
`'%Y-%m-%d %H:%M:%S'` part and the microsecond field (`%f`, six digits). -/
structure ClockTime where
  datePart : String
  micro : Nat
deriving DecidableEq, Repr

/-- Zero-pad a decimal string on the left to width `w`. -/
def padZeros (w : Nat) (s : String) : String :=
  String.mk (List.replicate (w - s.length) '0') ++ s

/-- `datetime.now().strftime('%Y-%m-%d %H:%M:%S.%f')[:-3]`: the full
timestamp with six-digit microseconds, truncated by three characters,
leaving millisecond precision. -/
def msTimestamp (t : ClockTime) : String :=
  (t.datePart ++ "." ++ padZeros 6 (toString t.micro)).dropRight 3

/-- Right-justify a string to width `w` with spaces (`f"{...:>w}"`). -/
def padLeft (s : String) (w : Nat) : String :=
  String.mk (List.replicate (w - s.length) ' ') ++ s

/-- Python fixed-point formatting `f"{q:.decs f}"` for the rationals this
script prints: round to `decs` decimal places and print sign, integer
part, and zero-padded fraction.  Python rounds the underlying binary
double to nearest; away from ties this agrees with rounding the exact
rational. -/
def fmtFixed (decs : Nat) (q : ℚ) : String :=
  let scale : ℤ := (10 : ℤ) ^ decs
  let n : ℤ := round ((scale : ℚ) * q)
  let sign := if n < 0 then "-" else ""
  let m := n.natAbs
  sign ++ toString (m / scale.natAbs) ++ "." ++ padZeros decs (toString (m % scale.natAbs))

/-- `MeasurementCollector._read_all_measurements`: read every registered
variable in order; each success contributes the raw value to the CSV list
and a `f"{value:>15.2f}"` string to the display list, each caught failure
contributes `'N/A'` to both (width-15 padded for display). -/
def read_all_measurements (read : String → Option ℚ) :
    List String → List CsvCell × List String
  | [] => ([], [])
  | v :: rest =>
    let r := read_all_measurements read rest
    match read v with
    | some x => (.num x :: r.1, padLeft (fmtFixed 2 x) 15 :: r.2)
    | none => (.str "N/A" :: r.1, padLeft "N/A" 15 :: r.2)

/-- The CSV data row of one tick (line 863):
`[f"{elapsed_time:.1f}", timestamp] + values` with
`elapsed_time = (i + 1) * interval`. -/
def sample_row (i : Nat) (interval : ℚ) (t : ClockTime) (cells : List CsvCell) :
    List CsvCell :=
  .str (fmtFixed 1 (((i : ℚ) + 1) * interval)) :: .str (msTimestamp t) :: cells

/-- The header row written by `_open_csv_file`:
`['시간(초)', '타임스탬프'] + var_names_list`. -/
def csv_header (vl : List String) : List CsvCell :=
  .str "시간(초)" :: .str "타임스탬프" :: vl.map CsvCell.str

/-- `MeasurementCollector._check_connections`: the advisory connectivity
probe, counting the variables readable before sampling starts. -/
def check_connections (read : String → Option ℚ) (vl : List String) : Nat :=
  vl.countP (fun v => (read v).isSome)

/-- Python `int(...)` on a rational: truncation toward zero. -/
def pyInt (q : ℚ) : ℤ := if 0 ≤ q then ⌊q⌋ else -⌊-q⌋

/-- How the collection phase ended: the loop ran to completion, or a
`csv_writer.writerow` raised (e.g. disk full) and the exception escaped. -/
inductive PhaseEnd
  | normal
  | sinkError
deriving DecidableEq, Repr

/-- The `for i in range(num_samples)` loop of `_collect_samples` over the
remaining tick indices: at tick `i` build the row from the clock and the
reads, then hand it to the sink; when the sink write raises
(`writeOk i = false`) the exception aborts the loop.  Returns the rows
the sink accepted and how the phase ended. -/
def collect_samples_loop (read : Nat → String → Option ℚ) (clock : Nat → ClockTime)
    (writeOk : Nat → Bool) (vl : List String) (interval : ℚ) :
    List Nat → List (List CsvCell) × PhaseEnd
  | [] => ([], .normal)
  | i :: rest =>
    let row := sample_row i interval (clock i) (read_all_measurements (read i) vl).1
    if writeOk i then
      let r := collect_samples_loop read clock writeOk vl interval rest
      (row :: r.1, r.2)
    else ([], .sinkError)

/-- Result of `MeasurementCollector.collect_and_save`: the sink contents
(header first), whether the `finally` block closed the file handle, and
how the collection phase ended. -/
structure RunResult where
  sink : List (List CsvCell)
  closed : Bool
  outcome : PhaseEnd
deriving DecidableEq, Repr

/-- `MeasurementCollector.collect_and_save`: compute
`num_samples = int(duration / interval)`, open the sink and write the
header, then run `_collect_samples` under `try/finally`, so the handle is
closed on both the normal and the escalated-sink-error exit before any
exception continues to propagate. -/
def collect_and_save (read : Nat → String → Option ℚ) (clock : Nat → ClockTime)
    (writeOk : Nat → Bool) (vl : List String) (duration interval : ℚ) : RunResult :=
  let num_samples := (pyInt (duration / interval)).toNat
  let r := collect_samples_loop read clock writeOk vl interval (List.range num_samples)
  RunResult.mk (csv_header vl :: r.1) true r.2

/-! ## Claims about the write-verify engine -/

/-- C5.  For every parameter, if the `writeValue` call fails, `applyOne`
returns `WriteFailed` immediately and performs zero verification read
attempts: verification logic is never entered on a failed write. -/
theorem claim_C5 (b : ParamBehavior) (v : ℚ) (h : b.writeOk = false) :
    apply_single b v = .ok (.WriteFailed, 0) := by
  simp [apply_single, write_calibration, h]

/-- Witness for C5 at a concrete behaviour whose write raises. -/
theorem claim_C5_witness :
    apply_single (ParamBehavior.mk none false [] (fun _ => some 0)) 0 =
      .ok (.WriteFailed, 0) :=
  claim_C5 (ParamBehavior.mk none false [] (fun _ => some 0)) 0 rfl

/-- C6.  The memory-sync strategies are tried in their fixed order and
trying stops at the first one that does not raise (the attempt count does
not depend on the strategies after the first success); if every strategy
fails, all are tried, yet the write is still treated as successful and the
procedure proceeds to verification rather than returning `WriteFailed`. -/
theorem claim_C6 :
    (∀ (pre post : List Bool), (∀ x ∈ pre, x = false) →
        sync_memory (pre ++ true :: post) = (true, pre.length + 1)) ∧
    (∀ l : List Bool, (∀ x ∈ l, x = false) → sync_memory l = (false, l.length)) ∧
    (∀ (b : ParamBehavior) (v : ℚ), b.writeOk = true →
        write_calibration b = true ∧ ∀ n, apply_single b v ≠ .ok (.WriteFailed, n)) := by
  refine ⟨?_, ?_, ?_⟩
  · intro pre post h
    induction pre with
    | nil => simp [sync_memory]
    | cons x xs ih =>
      have hx : x = false := h x (by simp)
      subst hx
      rw [List.cons_append, sync_memory, ih (fun y hy => h y (by simp [hy]))]
      simp
  · intro l h
    induction l with
    | nil => simp [sync_memory]
    | cons x xs ih =>
      have hx : x = false := h x (by simp)
      subst hx
      rw [sync_memory, ih (fun y hy => h y (by simp [hy]))]
      simp
  · intro b v h
    refine ⟨by simp [write_calibration, h], ?_⟩
    intro n hcontra
    simp only [apply_single, write_calibration, h, if_true] at hcontra
    rcases hv : verify_calibration b.verifyReads v with e | ⟨ok, m⟩ <;>
      rw [hv] at hcontra <;> first
      | exact Except.noConfusion hcontra
      | cases ok <;> simp_all

/-- Witness for C6: stop after the first successful strategy, try all of a
list of failing strategies, and reach verification on an all-fail sync. -/
theorem claim_C6_witness :
    sync_memory [false, false, true] = (true, 3) ∧
    sync_memory [false, false, false] = (false, 3) ∧
    write_calibration (ParamBehavior.mk none true [false, false, false] (fun _ => some 5)) =
      true ∧
    apply_single (ParamBehavior.mk none true [false, false, false] (fun _ => some 5)) 5 ≠
      .ok (.WriteFailed, 0) :=
  ⟨claim_C6.1 [false, false] [] (by decide),
   claim_C6.2.1 [false, false, false] (by decide),
   (claim_C6.2.2 (ParamBehavior.mk none true [false, false, false] (fun _ => some 5)) 5 rfl).1,
   (claim_C6.2.2 (ParamBehavior.mk none true [false, false, false] (fun _ => some 5)) 5 rfl).2 0⟩

/-- C1.  The claim says `apply_all` never lets an exception past the
boundary of a single parameter and always returns a summary with
`succeeded + failed = k`.  The first conjunct shows the intended
behaviour on a mixed batch (one `WriteFailed`, one `Verified`, summary
`(1, 1)`), but the second shows the code slip: when a parameter's write
succeeds and every verification read raises, the final warning in
`_verify_calibration` formats `None` with `:.2f`, and the resulting
`TypeError` escapes `apply_all`, so no summary is produced at all. -/
theorem claim_C1 :
    apply_all
        (fun name => if name = "A" then ParamBehavior.mk none false [] (fun _ => none)
          else ParamBehavior.mk (some 7) true [true] (fun _ => some 7))
        [("A", 5), ("B", 7)] = .ok (1, 1) ∧
    apply_all (fun _ => ParamBehavior.mk (some 1) true [true] (fun _ => none)) [("X", 1)] =
      .error () := by
  constructor <;> with_unfolding_all decide

/-- C4.  `applyOne` accepts exactly the reads within `0.01` absolute of
the target: a read of `99.995` against target `100.0` is `Verified` on the
first read, `99.98` fails all three reads and yields
`UnverifiedAfterRetries`, a failing first read followed by an exact read
is `Verified` on the second attempt — but when all three reads raise, the
code raises a `TypeError` (formatting `None`) instead of returning
`UnverifiedAfterRetries` as the claim states. -/
theorem claim_C4 :
    apply_single (ParamBehavior.mk (some 1) true [false, false, false]
        (fun _ => some (19999 / 200))) 100 = .ok (.Verified, 1) ∧
    apply_single (ParamBehavior.mk (some 1) true [false, false, false]
        (fun _ => some (4999 / 50))) 100 = .ok (.UnverifiedAfterRetries, 3) ∧
    apply_single (ParamBehavior.mk (some 1) true [false, false, false]
        (fun k => if k = 0 then none else some 100)) 100 = .ok (.Verified, 2) ∧
    apply_single (ParamBehavior.mk (some 1) true [false, false, false] (fun _ => none)) 100 =
      .error () := by
  refine ⟨?_, ?_, ?_, ?_⟩ <;> with_unfolding_all decide

/-! ## Claims about the filename resolver -/

/-- The candidate search skips exactly the unavailable names before the
first available one. -/
theorem findAvail_append_false (w : String → Bool) (l1 : List String) (c : String)
    (l2 : List String) (h1 : ∀ x ∈ l1, w x = false) (hc : w c = true) :
    findAvail w (l1 ++ c :: l2) = some c := by
  induction l1 with
  | nil => simp [findAvail, hc]
  | cons x xs ih =>
    have hx := h1 x (by simp)
    simp only [List.cons_append, findAvail, hx, Bool.false_eq_true, if_false]
    exact ih (fun y hy => h1 y (by simp [hy]))

/-- The candidate search fails when every candidate is unavailable. -/
theorem findAvail_none (w : String → Bool) (l : List String)
    (h : ∀ x ∈ l, w x = false) : findAvail w l = none := by
  induction l with
  | nil => rfl
  | cons x xs ih =>
    have hx := h x (by simp)
    simp only [findAvail, hx, Bool.false_eq_true, if_false]
    exact ih (fun y hy => h y (by simp [hy]))

/-- C8.  For every `n` in `1..100`, if the desired path and the candidates
`{stem}_{1}{ext} .. {stem}_{n-1}{ext}` are all unavailable and
`{stem}_{n}{ext}` is available, the resolver returns `{stem}_{n}{ext}`;
if the desired path and all 100 numbered candidates are unavailable, it
returns no path. -/
theorem claim_C8 :
    (∀ (w : String → Bool) (fn : String) (n : Nat), 1 ≤ n → n ≤ 100 →
      w fn = false →
      (∀ m ∈ List.range' 1 (n - 1), w (candidate fn m) = false) →
      w (candidate fn n) = true →
      get_available_filename w fn = some (candidate fn n)) ∧
    (∀ (w : String → Bool) (fn : String), w fn = false →
      (∀ m ∈ List.range' 1 100, w (candidate fn m) = false) →
      get_available_filename w fn = none) := by
  constructor
  · intro w fn n h1 h100 hfn hpre hn
    unfold get_available_filename
    rw [hfn]
    simp only [Bool.false_eq_true, if_false]
    have hsplit : List.range' 1 100 =
        List.range' 1 (n - 1) ++ n :: List.range' (n + 1) (100 - n) := by
      calc List.range' 1 100 = List.range' 1 ((101 - n) + (n - 1)) := by congr 1; omega
        _ = List.range' 1 (n - 1) ++ List.range' (1 + (n - 1)) (101 - n) :=
            (List.range'_append_1 1 (n - 1) (101 - n)).symm
        _ = List.range' 1 (n - 1) ++ n :: List.range' (n + 1) (100 - n) := by
            rw [show 1 + (n - 1) = n by omega, show 101 - n = (100 - n) + 1 by omega,
              List.range'_succ]
    rw [hsplit, List.map_append, List.map_cons]
    refine findAvail_append_false w _ _ _ ?_ hn
    intro x hx
    rcases List.mem_map.mp hx with ⟨m, hm, rfl⟩
    exact hpre m hm
  · intro w fn hfn hall
    unfold get_available_filename
    rw [hfn]
    simp only [Bool.false_eq_true, if_false]
    refine findAvail_none w _ ?_
    intro x hx
    rcases List.mem_map.mp hx with ⟨m, hm, rfl⟩
    exact hall m hm

/-- Witness for C8: with only `out_2.csv` available, the resolver skips
`out_1.csv` and lands on `out_2.csv`; with nothing available it fails. -/
theorem claim_C8_witness :
    get_available_filename (fun s => decide (s = "out_2.csv")) "out.csv" =
      some (candidate "out.csv" 2) ∧
    get_available_filename (fun _ => false) "out.csv" = none :=
  ⟨claim_C8.1 (fun s => decide (s = "out_2.csv")) "out.csv" 2 (by decide) (by decide)
      (by decide) (by decide) (by decide),
   claim_C8.2 (fun _ => false) "out.csv" rfl (by simp)⟩

/-! ## Claims about registration and the sampling loop -/

/-- Each CSV value slot of a row depends only on its own channel's read:
the CSV half of `_read_all_measurements` is precisely `cellOf` mapped over
the registered names. -/
theorem read_all_fst_eq_map (read : String → Option ℚ) (vl : List String) :
    (read_all_measurements read vl).1 = vl.map (fun n => cellOf (read n)) := by
  induction vl with
  | nil => rfl
  | cons v rest ih =>
    simp only [read_all_measurements, List.map_cons]
    cases h : read v <;> simp [cellOf, h, ih]

/-- Key list of a dict after one assignment: unchanged when the key is
present, appended otherwise. -/
theorem dictInsert_keys (d : List (String × String)) (k v : String) :
    (dictInsert d k v).map Prod.fst =
      if k ∈ d.map Prod.fst then d.map Prod.fst else d.map Prod.fst ++ [k] := by
  induction d with
  | nil => simp [dictInsert]
  | cons p rest ih =>
    obtain ⟨k', v'⟩ := p
    by_cases hk : k' = k
    · subst hk
      simp [dictInsert]
    · simp only [dictInsert, if_neg hk, List.map_cons, ih, List.mem_cons]
      by_cases hmem : k ∈ rest.map Prod.fst
      · simp [hmem]
      · simp [hmem, Ne.symm hk]

/-- Dict assignment preserves distinctness of keys. -/
theorem dictInsert_keys_nodup (d : List (String × String)) (k v : String)
    (h : (d.map Prod.fst).Nodup) : ((dictInsert d k v).map Prod.fst).Nodup := by
  rw [dictInsert_keys]
  by_cases hmem : k ∈ d.map Prod.fst
  · simpa [hmem] using h
  · simp [hmem, List.nodup_append, h]

/-- Membership in the keys after a dict assignment. -/
theorem mem_dictInsert_keys (d : List (String × String)) (k v k' : String) :
    k' ∈ (dictInsert d k v).map Prod.fst ↔ k' ∈ d.map Prod.fst ∨ k' = k := by
  rw [dictInsert_keys]
  by_cases hmem : k ∈ d.map Prod.fst
  · simp only [hmem, if_true]
    constructor
    · exact Or.inl
    · rintro (h | rfl)
      · exact h
      · exact hmem
  · simp [hmem]

/-- The registration fold keeps keys distinct. -/
theorem foldl_dictInsert_nodup (names : List String) (d : List (String × String))
    (h : (d.map Prod.fst).Nodup) :
    ((names.foldl (fun d n => dictInsert d (normKey n) n) d).map Prod.fst).Nodup := by
  induction names generalizing d with
  | nil => simpa using h
  | cons n rest ih => exact ih _ (dictInsert_keys_nodup _ _ _ h)

/-- The registration fold's key set is the initial keys plus the
normalised names. -/
theorem mem_foldl_dictInsert_keys (names : List String) (d : List (String × String))
    (k : String) :
    k ∈ (names.foldl (fun d n => dictInsert d (normKey n) n) d).map Prod.fst ↔
      k ∈ d.map Prod.fst ∨ k ∈ names.map normKey := by
  induction names generalizing d with
  | nil => simp
  | cons n rest ih =>
    simp only [List.foldl_cons, List.map_cons, List.mem_cons]
    rw [ih, mem_dictInsert_keys]
    tauto

/-- C2 (amended).  Registration collapses channel names to one dict entry
per distinct key `lower().replace('_','')` — the keys are exactly the
normalised names, each occurring once — and every emitted row has exactly
one value slot per registered entry, in order, each slot depending only on
its own channel's read (a read failure yields the sentinel in that slot
alone). -/
theorem claim_C2 :
    (∀ (read : String → Option ℚ) (vl : List String),
        (read_all_measurements read vl).1 = vl.map (fun n => cellOf (read n))) ∧
    (∀ names : List String, ((register_vars names).map Prod.fst).Nodup) ∧
    (∀ (names : List String) (k : String),
        k ∈ (register_vars names).map Prod.fst ↔ k ∈ names.map normKey) := by
  refine ⟨read_all_fst_eq_map, ?_, ?_⟩
  · intro names
    exact foldl_dictInsert_nodup names [] (by simp)
  · intro names k
    simpa [register_vars] using mem_foldl_dictInsert_keys names [] k

/-- Counterexample to C2 as stated: the two-channel set
`"Input_1,input1"` (names differing only in case and underscore) is
registered as a single dict entry, so every sample row carries one value
slot, not two. -/
theorem claim_C2_counterexample :
    (splitComma "Input_1,input1").length = 2 ∧
    (read_all_measurements (fun _ => some 0)
        (measurement_values ((set_measurement_vars "Input_1,input1").getD []))).1.length =
      1 := by
  constructor <;> with_unfolding_all decide

/-- The sampling loop with a sink that accepts every row: one row per
tick, each row built by `sample_row` from that tick's clock and reads. -/
theorem collect_loop_of_writeOk (read : Nat → String → Option ℚ) (clock : Nat → ClockTime)
    (writeOk : Nat → Bool) (vl : List String) (interval : ℚ) (ticks : List Nat)
    (h : ∀ t ∈ ticks, writeOk t = true) :
    collect_samples_loop read clock writeOk vl interval ticks =
      (ticks.map (fun i => sample_row i interval (clock i)
        (vl.map (fun n => cellOf (read i n)))), .normal) := by
  induction ticks with
  | nil => rfl
  | cons i rest ih =>
    have hi := h i (by simp)
    simp only [collect_samples_loop, hi, if_true, read_all_fst_eq_map, List.map_cons]
    rw [ih (fun t ht => h t (by simp [ht]))]

/-- C7.  `sampleCount = int(duration / interval)` (floor for the positive
inputs the tool accepts): with a healthy sink the run produces exactly
`sampleCount` data rows after the header, the header row is always
written — also when `sampleCount ≤ 0`, where the sink holds the header
alone — and the phase ends normally; `duration=10, interval=0.2` gives 50
samples and `duration=0.05, interval=0.2` gives 0. -/
theorem claim_C7 :
    (∀ (read : Nat → String → Option ℚ) (clock : Nat → ClockTime) (writeOk : Nat → Bool)
        (vl : List String) (duration interval : ℚ),
      (∀ t, writeOk t = true) →
      (collect_and_save read clock writeOk vl duration interval).sink.length =
          1 + (pyInt (duration / interval)).toNat ∧
      (collect_and_save read clock writeOk vl duration interval).sink.head? =
          some (csv_header vl) ∧
      (collect_and_save read clock writeOk vl duration interval).outcome = .normal) ∧
    (pyInt ((10 : ℚ) / (2 / 10))).toNat = 50 ∧
    (pyInt ((5 / 100 : ℚ) / (2 / 10))).toNat = 0 := by
  refine ⟨?_, by with_unfolding_all decide, by with_unfolding_all decide⟩
  intro read clock writeOk vl duration interval h
  simp only [collect_and_save]
  rw [collect_loop_of_writeOk _ _ _ _ _ _ (fun t _ => h t)]
  simp [Nat.add_comm]

/-- Witness for C7 at `duration=0.05, interval=0.2`: zero data rows, the
header still written, normal return. -/
theorem claim_C7_witness :
    (collect_and_save (fun _ _ => none) (fun _ => ClockTime.mk "" 0) (fun _ => true)
        ["A"] (5 / 100) (2 / 10)).sink.length =
      1 + (pyInt ((5 / 100 : ℚ) / (2 / 10))).toNat ∧
    (collect_and_save (fun _ _ => none) (fun _ => ClockTime.mk "" 0) (fun _ => true)
        ["A"] (5 / 100) (2 / 10)).sink.head? = some (csv_header ["A"]) ∧
    (collect_and_save (fun _ _ => none) (fun _ => ClockTime.mk "" 0) (fun _ => true)
        ["A"] (5 / 100) (2 / 10)).outcome = .normal :=
  claim_C7.1 (fun _ _ => none) (fun _ => ClockTime.mk "" 0) (fun _ => true)
    ["A"] (5 / 100) (2 / 10) (fun _ => rfl)

/-- C9.  The sink handle is closed on every exit of the collection phase;
with a healthy sink the loop always runs to completion with the full row
count no matter how the channel reads fail; and when the very first sink
write raises, the phase ends with the escalated sink error, the handle
closed before the error continues. -/
theorem claim_C9 :
    (∀ (read : Nat → String → Option ℚ) (clock : Nat → ClockTime) (writeOk : Nat → Bool)
        (vl : List String) (duration interval : ℚ),
      (collect_and_save read clock writeOk vl duration interval).closed = true) ∧
    (∀ (read : Nat → String → Option ℚ) (clock : Nat → ClockTime)
        (vl : List String) (duration interval : ℚ),
      (collect_and_save read clock (fun _ => true) vl duration interval).outcome =
          .normal ∧
      (collect_and_save read clock (fun _ => true) vl duration interval).sink.length =
          1 + (pyInt (duration / interval)).toNat) ∧
    (collect_and_save (fun _ _ => none) (fun _ => ClockTime.mk "" 0) (fun _ => false)
        ["A"] 1 1).outcome = .sinkError ∧
    (collect_and_save (fun _ _ => none) (fun _ => ClockTime.mk "" 0) (fun _ => false)
        ["A"] 1 1).sink.length = 1 := by
  refine ⟨fun _ _ _ _ _ _ => rfl, ?_,
    by with_unfolding_all decide, by with_unfolding_all decide⟩
  intro read clock vl duration interval
  simp only [collect_and_save]
  rw [collect_loop_of_writeOk _ _ _ _ _ _ (fun t _ => rfl)]
  simp [Nat.add_comm]

/-- C3 (amended).  Every data row written to the sink is the elapsed time
`(tick+1)*interval` formatted to one decimal, then the millisecond
timestamp string of that tick's clock, then one cell per registered
channel holding the raw read value (full precision, not rounded) or the
literal `'N/A'`; two-decimal formatting belongs to the console display
only. -/
theorem claim_C3 (read : Nat → String → Option ℚ) (clock : Nat → ClockTime)
    (vl : List String) (duration interval : ℚ) (j : Nat)
    (hj : j < (pyInt (duration / interval)).toNat) :
    (collect_and_save read clock (fun _ => true) vl duration interval).sink.get? (j + 1) =
      some (.str (fmtFixed 1 (((j : ℚ) + 1) * interval)) :: .str (msTimestamp (clock j)) ::
        vl.map (fun n => cellOf (read j n))) := by
  simp only [collect_and_save]
  rw [collect_loop_of_writeOk _ _ _ _ _ _ (fun t _ => rfl)]
  simp [sample_row, List.getElem?_map, List.getElem?_range, hj]

/-- Witness for C3 at a one-tick run with a successfully read channel. -/
theorem claim_C3_witness :
    (collect_and_save (fun _ _ => some 2) (fun _ => ClockTime.mk "T" 0) (fun _ => true)
        ["A"] 1 1).sink.get? 1 =
      some (.str (fmtFixed 1 (((0 : ℚ) + 1) * 1)) ::
        .str (msTimestamp (ClockTime.mk "T" 0)) :: [.num 2]) :=
  claim_C3 (fun _ _ => some 2) (fun _ => ClockTime.mk "T" 0) ["A"] 1 1 0
    (by with_unfolding_all decide)

/-- Counterexample to C3 as stated: with a channel reading `1/3`, the cell
the sink receives is the raw value `1/3`, which is not expressible to two
decimals (`1/3 ≠ 33/100`, the value two-decimal formatting would print). -/
theorem claim_C3_counterexample :
    (((collect_and_save (fun _ _ => some (1 / 3))
        (fun _ => ClockTime.mk "2025-01-01 00:00:00" 0) (fun _ => true)
        ["A"] 1 1).sink.getD 1 []).getD 2 (.str "")) = .num (1 / 3) ∧
    fmtFixed 2 (1 / 3) = "0.33" ∧
    (1 / 3 : ℚ) ≠ 33 / 100 := by
  refine ⟨?_, ?_, ?_⟩ <;> with_unfolding_all decide

/-! ## Claims about `stop_measurement` -/

/-- C10 (amended).  With no measurement started, `stop_measurement` is a
pure no-op: it returns `True`, changes no controller field and issues no
device operation.  A stop whose `StopMeasurement` call succeeds clears the
flag — even when the follow-up monitor write fails — so two consecutive
calls whose first `StopMeasurement` invocation does not raise issue that
call at most once.  (When the first invocation raises, the flag stays set
and a second call issues it again.) -/
theorem claim_C10 :
    (∀ (sOk mOk : Bool) (c : Controller), c.measurement_started = false →
        stop_measurement sOk mOk c = (true, c, [])) ∧
    (∀ (mOk : Bool) (c : Controller), c.measurement_started = true →
        (stop_measurement true mOk c).2.1.measurement_started = false) ∧
    (∀ (mOk1 sOk2 mOk2 : Bool) (c : Controller),
        countStop (stop_measurement true mOk1 c).2.2 +
          countStop
            (stop_measurement sOk2 mOk2 (stop_measurement true mOk1 c).2.1).2.2 ≤ 1) := by
  refine ⟨?_, ?_, ?_⟩
  · intro sOk mOk c h
    simp [stop_measurement, h]
  · intro mOk c h
    cases mOk <;> simp [stop_measurement, h]
  · intro mOk1 sOk2 mOk2 c
    cases hc : c.measurement_started <;> cases mOk1 <;> cases sOk2 <;>
      simp [stop_measurement, hc, countStop]

/-- Witness for C10 on concrete controllers: the not-started no-op, the
flag cleared by a successful stop, and the at-most-one bound across two
calls whose first stop succeeds. -/
theorem claim_C10_witness :
    stop_measurement true true (Controller.mk "p" "d" false []) =
      (true, Controller.mk "p" "d" false [], []) ∧
    (stop_measurement true true (Controller.mk "p" "d" true [])).2.1.measurement_started =
      false ∧
    countStop (stop_measurement true true (Controller.mk "p" "d" true [])).2.2 +
      countStop (stop_measurement false true
        (stop_measurement true true (Controller.mk "p" "d" true [])).2.1).2.2 ≤ 1 :=
  ⟨claim_C10.1 true true (Controller.mk "p" "d" false []) rfl,
   claim_C10.2.1 true (Controller.mk "p" "d" true []) rfl,
   claim_C10.2.2 true false true (Controller.mk "p" "d" true [])⟩

/-- Counterexample to C10 as stated: with the flag set and a device whose
`StopMeasurement` raises, two consecutive calls issue `StopMeasurement`
twice, not at most once. -/
theorem claim_C10_counterexample :
    countStop (stop_measurement false true (Controller.mk "Demo3" "dev" true [])).2.2 +
      countStop (stop_measurement false true
        (stop_measurement false true (Controller.mk "Demo3" "dev" true [])).2.1).2.2 = 2 := by
  decide

end Inca

